import Mathlib

/-!
# Verification of the SanaSilver admin backend core

Shallow embedding of the identity/access-control layer
(`admin.service.js`, `admin.model.js`, `jwt.util.js`) and of the order
model hooks (`order.model.js`) of the SanaSilver e-commerce admin
backend, together with proofs of the specification's claims about them.

Conventions:
* Mongo documents become Lean structures; the collection becomes a
  `List` of records, searched with `find?` (first match, as Mongo does).
* `bcrypt` is an external library: the password hash and verify
  functions are passed in as parameters (`hash`, `verify`).
* JS `Date` values become `Nat` seconds since the Unix epoch; the local
  timezone offset (seconds east of UTC) is an explicit `Int` parameter.
* Mongoose change tracking (`isModified`) is modelled by an explicit
  list of modified paths on a document wrapper; setting a path on a
  non-new document marks it modified only when the value actually
  changes, and a save clears the modified set (mongoose semantics).
* Fallible operations return `Except`; stateful service functions
  return the updated store paired with the result.
-/

namespace SanaSilver

/-- Status of an error thrown by the admin service layer.  Constructors
correspond to the distinct `throw new Error(...)` sites of
`admin.service.js` plus the token-expiry failure raised by the external
`jsonwebtoken` library. -/
inductive AuthError where
  | invalidCredentials
  | accountDeactivated
  | adminNotFound
  | invalidRefreshToken
  | tokenExpired
  | emailExists
  | incorrectPassword
deriving Repr, DecidableEq

/-- The literal `Error` message string attached at each throw site in
`admin.service.js` (and, for expiry, by `jsonwebtoken`). -/
def errorMessage : AuthError → String
  | .invalidCredentials => "Invalid credentials"
  | .accountDeactivated => "Account is deactivated"
  | .adminNotFound => "Admin not found"
  | .invalidRefreshToken => "Invalid refresh token"
  | .tokenExpired => "jwt expired"
  | .emailExists => "Admin with this email already exists"
  | .incorrectPassword => "Current password is incorrect"

/-- Modelled from the spec: §4.3/§7 classify credential failures and all
`refreshAccess` failures (identity missing, account inactive, stale
token-version, expired/invalid token) as `Unauthorized`; the HTTP
controller layer is out of the spec's scope. -/
def specUnauthorized : AuthError → Bool
  | .invalidCredentials => true
  | .accountDeactivated => true
  | .adminNotFound => true
  | .invalidRefreshToken => true
  | .tokenExpired => true
  | .emailExists => false
  | .incorrectPassword => false

/-- An `Admin` document (`admin.model.js`).  `password` holds the stored
digest.  `lastLogin` is optional; `tokenVersion` defaults to 0. -/
structure Admin where
  id : Nat
  name : String
  email : String
  password : String
  role : String
  permissions : List String
  isActive : Bool
  phone : Option String
  avatar : Option String
  lastLogin : Option Nat
  tokenVersion : Nat
deriving Repr, DecidableEq

/-- The admin projection returned by the service layer: `toObject()`
followed by `delete adminData.password` — the digest field is gone. -/
structure AdminPublic where
  id : Nat
  name : String
  email : String
  role : String
  permissions : List String
  isActive : Bool
  phone : Option String
  avatar : Option String
  lastLogin : Option Nat
  tokenVersion : Nat
deriving Repr, DecidableEq

/-- `admin.toObject()` with the password key deleted. -/
def toPublic (a : Admin) : AdminPublic :=
  { id := a.id, name := a.name, email := a.email, role := a.role
    permissions := a.permissions, isActive := a.isActive, phone := a.phone
    avatar := a.avatar, lastLogin := a.lastLogin, tokenVersion := a.tokenVersion }

/-- The `Admin` Mongo collection. -/
abbrev AdminStore := List Admin

/-- `Admin.findById(id)`: first document with the given id. -/
def findByIdA (db : AdminStore) (i : Nat) : Option Admin :=
  db.find? (fun a => a.id = i)

/-- `Admin.findOne({ email })`.  The schema lowercases stored emails
and mongoose casts the filter value through the same setter, so both
sides carry the identical normal form and matching is exact equality
on it. -/
def findOneEmail (db : AdminStore) (e : String) : Option Admin :=
  db.find? (fun a => a.email = e)

/-- `Admin.findByIdAndUpdate(i, ...)`: apply `g` to every document whose
id matches (there is at most one in a well-formed store). -/
def updateById (db : AdminStore) (i : Nat) (g : Admin → Admin) : AdminStore :=
  db.map (fun a => if a.id = i then g a else a)

/-! ## Permission Resolver (`admin.service.js` lines 10–28, 203–220) -/

/-- The `ROLE_PERMISSIONS` table: role → permission list, `none` for a
key absent from the object. -/
def ROLE_PERMISSIONS : String → Option (List String)
  | "super-admin" => some ["*"]
  | "admin" =>
      some ["products.*", "orders.*", "users.view", "users.edit",
            "coupons.*", "categories.*"]
  | "manager" =>
      some ["products.view", "products.edit", "orders.view", "orders.edit",
            "categories.view"]
  | "staff" => some ["products.view", "orders.view"]
  | _ => none

/-- `getRolePermissions(role)`: `ROLE_PERMISSIONS[role] || []`. -/
def getRolePermissions (role : String) : List String :=
  (ROLE_PERMISSIONS role).getD []

/-- Accumulator version of the JS one-character split below. -/
def splitDotAux : List Char → List Char → List String
  | [], acc => [String.mk acc.reverse]
  | c :: cs, acc =>
    if c = '.' then String.mk acc.reverse :: splitDotAux cs []
    else splitDotAux cs (c :: acc)

/-- JS `String.prototype.split(".")`: cut at every dot, keeping empty
pieces (so `"".split(".")` is `[""]` and the result is never empty). -/
def splitDot (s : String) : List String :=
  splitDotAux s.data []

/-- `hasPermission(adminPermissions, requiredPermission)`: global
wildcard, exact match, or `resource.*` where `resource` is the first
component of `requiredPermission.split(".")`. -/
def hasPermission (adminPermissions : List String) (requiredPermission : String) : Bool :=
  if adminPermissions.contains "*" then true
  else if adminPermissions.contains requiredPermission then true
  else
    let resource := (splitDot requiredPermission).headD ""
    adminPermissions.contains (resource ++ ".*")

/-! ## Token Issuer (`jwt.util.js`) -/

/-- Default access-token lifetime: `"15m"`. -/
def accessTokenTtl : Nat := 15 * 60

/-- Default refresh-token lifetime: `"7d"`. -/
def refreshTokenTtl : Nat := 7 * 24 * 60 * 60

/-- Access-token payload: `{ adminId, email, role, permissions }`. -/
structure AccessToken where
  adminId : Nat
  email : String
  role : String
  permissions : List String
  exp : Nat
deriving Repr, DecidableEq

/-- Refresh-token payload: `{ adminId, tokenVersion }`. -/
structure RefreshPayload where
  adminId : Nat
  tokenVersion : Nat
deriving Repr, DecidableEq

/-- A signed refresh token: payload plus expiry instant.  The distinct
signing secret of the refresh class is modelled by the distinct type. -/
structure RefreshToken where
  payload : RefreshPayload
  exp : Nat
deriving Repr, DecidableEq

/-- `generateAccessToken(admin)` at instant `now`. -/
def generateAccessToken (a : Admin) (now : Nat) : AccessToken :=
  { adminId := a.id, email := a.email, role := a.role
    permissions := a.permissions, exp := now + accessTokenTtl }

/-- `generateRefreshToken(admin)` at instant `now`; the payload embeds
the token version current at issuance (`admin.tokenVersion || 0`). -/
def generateRefreshToken (a : Admin) (now : Nat) : RefreshToken :=
  { payload := { adminId := a.id, tokenVersion := a.tokenVersion }
    exp := now + refreshTokenTtl }

/-- `verifyRefreshToken(token)` at instant `now`: `jsonwebtoken` rejects
a token once the clock reaches `exp`, otherwise yields the claims. -/
def verifyRefreshToken (tok : RefreshToken) (now : Nat) : Except AuthError RefreshPayload :=
  if tok.exp ≤ now then .error .tokenExpired else .ok tok.payload

/-! ## Credential Store hook (`admin.model.js` pre-save middleware) -/

/-- A loaded mongoose `Admin` document: the record plus the mongoose
change-tracking state (`modifiedPaths` and `isNew`). -/
structure AdminDoc where
  admin : Admin
  modified : List String
  isNew : Bool
deriving Repr, DecidableEq

/-- Assignment `doc.password = p`.  Mongoose marks the path modified for
any assignment on a new document, and on a persisted document only when
the assigned value differs from the current one. -/
def setAdminPassword (d : AdminDoc) (p : String) : AdminDoc :=
  if d.isNew || d.admin.password ≠ p then
    { d with admin := { d.admin with password := p }
             modified := "password" :: d.modified }
  else d

/-- The `adminSchema.pre("save")` hook: when the password path is not
modified it does nothing; otherwise it replaces the password with its
salted bcrypt digest (`hash`). -/
def adminPreSave (hash : String → String) (d : AdminDoc) : AdminDoc :=
  if d.modified.contains "password" then
    { d with admin := { d.admin with password := hash d.admin.password } }
  else d

/-- `doc.save()` at the document level: run the pre-save middleware,
then clear the change-tracking state (a saved document is no longer new
and has no modified paths). -/
def saveAdminDoc (hash : String → String) (d : AdminDoc) : AdminDoc :=
  let d' := adminPreSave hash d
  { d' with modified := [], isNew := false }

/-! ## Identity Manager (`admin.service.js`) -/

/-- Input object of `registerAdmin`; `role`, `phone`, `avatar` are
optional keys (`role` destructures with default `"staff"`). -/
structure RegisterData where
  name : String
  email : String
  password : String
  role : Option String
  phone : Option String
  avatar : Option String
deriving Repr, DecidableEq

/-- `registerAdmin(data, createdByAdminId)`: reject a duplicate email,
resolve the permission list from the role
(`ROLE_PERMISSIONS[role] || ROLE_PERMISSIONS.staff`), create the
document (the schema lowercases the email; the pre-save hook hashes the
explicitly-set password; `isActive` and `tokenVersion` take their
schema defaults), and return the record with the digest stripped.
`newId` stands for the id the database generates for the new document. -/
def registerAdmin (hash : String → String) (db : AdminStore) (newId : Nat)
    (data : RegisterData) (_createdByAdminId : Nat) :
    AdminStore × Except AuthError AdminPublic :=
  if (findOneEmail db data.email).isSome then
    (db, .error .emailExists)
  else
    let role := data.role.getD "staff"
    let permissions := (ROLE_PERMISSIONS role).getD ((ROLE_PERMISSIONS "staff").getD [])
    let fresh : Admin :=
      { id := newId, name := data.name, email := data.email
        password := data.password, role := role, permissions := permissions
        isActive := true, phone := data.phone, avatar := data.avatar
        lastLogin := none, tokenVersion := 0 }
    let doc := saveAdminDoc hash
      { admin := fresh
        modified := ["name", "email", "password", "role", "permissions",
                     "phone", "avatar"]
        isNew := true }
    (db ++ [doc.admin], .ok (toPublic doc.admin))

/-- `updateLastLogin(adminId)`. -/
def updateLastLogin (db : AdminStore) (i : Nat) (now : Nat) : AdminStore :=
  updateById db i (fun a => { a with lastLogin := some now })

/-- Result of a successful `loginAdmin`. -/
structure LoginResult where
  admin : AdminPublic
  accessToken : AccessToken
  refreshToken : RefreshToken
deriving Repr, DecidableEq

/-- `loginAdmin(email, password)`: unknown email and wrong password both
throw `"Invalid credentials"`; a deactivated account throws
`"Account is deactivated"`; on success the last-login timestamp is
recorded, one access and one refresh token are issued, and the admin is
returned with the digest stripped.  `verify` is `bcrypt.compare`. -/
def loginAdmin (verify : String → String → Bool) (db : AdminStore)
    (email password : String) (now : Nat) :
    AdminStore × Except AuthError LoginResult :=
  match findOneEmail db email with
  | none => (db, .error .invalidCredentials)
  | some admin =>
    if !admin.isActive then (db, .error .accountDeactivated)
    else if !(verify password admin.password) then (db, .error .invalidCredentials)
    else
      let db' := updateLastLogin db admin.id now
      (db', .ok { admin := toPublic admin
                  accessToken := generateAccessToken admin now
                  refreshToken := generateRefreshToken admin now })

/-- `refreshAccessToken(refreshToken)`: verify the token, load the
admin, reject a missing or deactivated account or a stale embedded
token version, otherwise issue a new access token only. -/
def refreshAccessToken (db : AdminStore) (tok : RefreshToken) (now : Nat) :
    AdminStore × Except AuthError AccessToken :=
  match verifyRefreshToken tok now with
  | .error e => (db, .error e)
  | .ok decoded =>
    match findByIdA db decoded.adminId with
    | none => (db, .error .adminNotFound)
    | some admin =>
      if !admin.isActive then (db, .error .accountDeactivated)
      else if admin.tokenVersion ≠ decoded.tokenVersion then
        (db, .error .invalidRefreshToken)
      else (db, .ok (generateAccessToken admin now))

/-- `logoutAdmin(adminId)`: `$inc` the token version of the matching
document (a no-op when the id is absent) and report success. -/
def logoutAdmin (db : AdminStore) (i : Nat) : AdminStore × Except AuthError String :=
  (updateById db i (fun a => { a with tokenVersion := a.tokenVersion + 1 }),
   .ok "Logged out successfully")

/-- `getAdminProfile(adminId)`: read-only lookup, digest stripped. -/
def getAdminProfile (db : AdminStore) (i : Nat) :
    AdminStore × Except AuthError AdminPublic :=
  match findByIdA db i with
  | none => (db, .error .adminNotFound)
  | some admin => (db, .ok (toPublic admin))

/-- Input object of `updateAdminProfile`.  The service destructures only
`name`, `phone` and `avatar`; the remaining fields model arbitrary
extra keys a caller may put in the JS object — they are ignored by
construction, exactly as the destructuring ignores them. -/
structure ProfileUpdates where
  name : Option String
  phone : Option String
  avatar : Option String
  role : Option String
  permissions : Option (List String)
deriving Repr, DecidableEq

/-- The update document built by `updateAdminProfile`: `name` only when
truthy (a present, non-empty string), `phone`/`avatar` whenever the key
is present (`!== undefined`). -/
def profileUpdateData (u : ProfileUpdates) (a : Admin) : Admin :=
  let a1 := match u.name with
    | some n => if n ≠ "" then { a with name := n } else a
    | none => a
  let a2 := match u.phone with
    | some p => { a1 with phone := some p }
    | none => a1
  match u.avatar with
  | some v => { a2 with avatar := some v }
  | none => a2

/-- `updateAdminProfile(adminId, updates)`:
`findByIdAndUpdate(adminId, updateData, { new: true })`. -/
def updateAdminProfile (db : AdminStore) (i : Nat) (u : ProfileUpdates) :
    AdminStore × Except AuthError AdminPublic :=
  match findByIdA db i with
  | none => (db, .error .adminNotFound)
  | some admin =>
    (updateById db i (profileUpdateData u), .ok (toPublic (profileUpdateData u admin)))

/-- `changePassword(adminId, oldPassword, newPassword)`: load the admin
with its digest, verify the old password, then set the new password on
the document and save it (the pre-save hook hashes it), and finally
`$inc` the token version in a second write, as the source does. -/
def changePassword (hash : String → String) (verify : String → String → Bool)
    (db : AdminStore) (i : Nat) (oldPassword newPassword : String) :
    AdminStore × Except AuthError String :=
  match findByIdA db i with
  | none => (db, .error .adminNotFound)
  | some admin =>
    if !(verify oldPassword admin.password) then
      (db, .error .incorrectPassword)
    else
      let doc := saveAdminDoc hash (setAdminPassword ⟨admin, [], false⟩ newPassword)
      let db1 := updateById db i (fun a => { a with password := doc.admin.password })
      let db2 := updateById db1 i (fun a => { a with tokenVersion := a.tokenVersion + 1 })
      (db2, .ok "Password changed successfully")

/-- The operations the admin service exposes, with their inputs; used to
state store-wide invariants quantified over every operation. -/
inductive AdminOp where
  | register (newId : Nat) (data : RegisterData) (createdBy : Nat)
  | login (email password : String) (now : Nat)
  | refresh (tok : RefreshToken) (now : Nat)
  | logout (adminId : Nat)
  | getProfile (adminId : Nat)
  | updateProfile (adminId : Nat) (u : ProfileUpdates)
  | changePwd (adminId : Nat) (oldPassword newPassword : String)

/-- The store effect of each service operation. -/
def applyAdminOp (hash : String → String) (verify : String → String → Bool)
    (db : AdminStore) : AdminOp → AdminStore
  | .register newId data createdBy => (registerAdmin hash db newId data createdBy).1
  | .login email password now => (loginAdmin verify db email password now).1
  | .refresh tok now => (refreshAccessToken db tok now).1
  | .logout i => (logoutAdmin db i).1
  | .getProfile i => (getAdminProfile db i).1
  | .updateProfile i u => (updateAdminProfile db i u).1
  | .changePwd i o n => (changePassword hash verify db i o n).1

/-! ## Order model (`order.model.js`) -/

/-- `String.prototype.padStart(n, c)`. -/
def padStart (s : String) (n : Nat) (c : Char) : String :=
  if n ≤ s.length then s
  else String.mk (List.replicate (n - s.length) c) ++ s

/-- Gregorian civil date (year, month, day) of a day count since
1970-01-01, following the standard days-from-civil inversion; all
inputs used here are non-negative, so `Nat` arithmetic suffices. -/
def civilFromDays (z : Nat) : Nat × Nat × Nat :=
  let z := z + 719468
  let era := z / 146097
  let doe := z % 146097
  let yoe := (doe - doe / 1460 + doe / 36524 - doe / 146096) / 365
  let y := yoe + era * 400
  let doy := doe - (365 * yoe + yoe / 4 - yoe / 100)
  let mp := (5 * doy + 2) / 153
  let d := doy - (153 * mp + 2) / 5 + 1
  let m := if mp < 10 then mp + 3 else mp - 9
  (if m ≤ 2 then y + 1 else y, m, d)

/-- `date.toISOString().slice(0, 10)` with the dashes removed: the UTC
civil date of instant `t` (seconds) rendered as `YYYYMMDD`. -/
def yyyymmdd (t : Nat) : String :=
  let c := civilFromDays (t / 86400)
  padStart (Nat.repr c.1) 4 '0' ++ padStart (Nat.repr c.2.1) 2 '0'
    ++ padStart (Nat.repr c.2.2) 2 '0'

/-- `new Date(date.setHours(0, 0, 0, 0))`: local midnight of instant
`t`, for a timezone `off` seconds east of UTC. -/
def localMidnight (off : Int) (t : Nat) : Int :=
  (t : Int) - Int.emod ((t : Int) + off) 86400

/-- One `statusHistory` entry (sub-schema of `order.model.js`); `note`
and `updatedBy` are optional and not set by the pre-save hook. -/
structure StatusEntry where
  status : String
  timestamp : Nat
deriving Repr, DecidableEq

/-- An `Order` document, restricted to the fields the order-number and
status-history hooks read or write (`orderNumber` uses `""` for the JS
falsy "not yet assigned" state; `createdAt` is the timestamps-plugin
creation instant).  The remaining schema fields (customer, items,
addresses, pricing, payment, tracking, notes) are carried by the real
documents but never touched by the verified hooks. -/
structure Order where
  id : Nat
  orderNumber : String
  orderStatus : String
  statusHistory : List StatusEntry
  createdAt : Nat
deriving Repr, DecidableEq

/-- A loaded mongoose `Order` document with its change-tracking state. -/
structure OrderDoc where
  order : Order
  modified : List String
  isNew : Bool
deriving Repr, DecidableEq

/-- Assignment `doc.orderStatus = s`: mongoose marks the path modified
for any assignment on a new document, and on a persisted document only
when the value actually changes. -/
def setOrderStatus (d : OrderDoc) (s : String) : OrderDoc :=
  if d.isNew || d.order.orderStatus ≠ s then
    { d with order := { d.order with orderStatus := s }
             modified := "orderStatus" :: d.modified }
  else d

/-- `countDocuments({ createdAt: { $gte: localMidnight } })`: orders
created since local midnight of instant `now`. -/
def sameDayCount (db : List Order) (off : Int) (now : Nat) : Nat :=
  (db.filter (fun x => localMidnight off now ≤ (x.createdAt : Int))).length

/-- The first `orderSchema.pre("save")` hook: when no order number is
assigned yet, build one from the UTC date string and the count of
orders created since local midnight, plus one, zero-padded to four
digits. -/
def assignOrderNumber (db : List Order) (off : Int) (now : Nat) (o : Order) : Order :=
  if o.orderNumber = "" then
    { o with orderNumber :=
        "ORD-" ++ yyyymmdd now ++ "-"
          ++ padStart (Nat.repr (sameDayCount db off now + 1)) 4 '0' }
  else o

/-- The pre-save middleware pipeline of `orderSchema`: the order-number
hook followed by the status-history hook (append one entry exactly when
the `orderStatus` path is modified). -/
def orderPreSave (db : List Order) (off : Int) (now : Nat) (d : OrderDoc) : OrderDoc :=
  let o1 := assignOrderNumber db off now d.order
  let o2 :=
    if d.modified.contains "orderStatus" then
      { o1 with statusHistory := o1.statusHistory ++ [⟨o1.orderStatus, now⟩] }
    else o1
  { d with order := o2 }

/-- Database write failure surfaced by a save. -/
inductive SaveError where
  | duplicateKey
deriving Repr, DecidableEq

/-- `doc.save()` for an order: run the pre-save middleware, stamp
`createdAt` on an insert, enforce the `unique: true` index on
`orderNumber`, persist (insert or in-place update by id), and clear the
change-tracking state. -/
def saveOrderDoc (db : List Order) (off : Int) (now : Nat) (d : OrderDoc) :
    Except SaveError (List Order × OrderDoc) :=
  let d' := orderPreSave db off now d
  if d.isNew then
    let o := { d'.order with createdAt := now }
    if db.any (fun x => x.orderNumber = o.orderNumber) then .error .duplicateKey
    else .ok (db ++ [o], ⟨o, [], false⟩)
  else
    let o := d'.order
    if db.any (fun x => x.id ≠ o.id && x.orderNumber = o.orderNumber) then
      .error .duplicateKey
    else .ok (db.map (fun x => if x.id = o.id then o else x), ⟨o, [], false⟩)

/-- Modelled from the spec: order creation (§4.6 `create`) lives outside
the admin backend sources; per the spec it builds a new order document
with no order number yet and the initial status `"pending"` set
explicitly (hence marked modified on the new document), so that the
first save appends the initial status-history entry. -/
def createOrder (newId : Nat) : OrderDoc :=
  { order := { id := newId, orderNumber := "", orderStatus := "pending"
               statusHistory := [], createdAt := 0 }
    modified := ["orderStatus"]
    isNew := true }

/-! ## Helper lemmas -/

theorem findByIdA_id {db : AdminStore} {i : Nat} {a : Admin}
    (h : findByIdA db i = some a) : a.id = i := by
  unfold findByIdA at h
  have := List.find?_some h
  simpa using this

theorem findByIdA_updateById (db : AdminStore) (j : Nat) (g : Admin → Admin)
    (hg : ∀ a, (g a).id = a.id) (i : Nat) :
    findByIdA (updateById db j g) i
      = (findByIdA db i).map (fun a => if a.id = j then g a else a) := by
  induction db with
  | nil => rfl
  | cons a tl ih =>
    unfold updateById findByIdA at ih ⊢
    simp only [List.map_cons]
    by_cases hj : a.id = j
    · rw [if_pos hj]
      by_cases hi : a.id = i
      · rw [List.find?_cons_of_pos _ (by simp [hg a, hi]),
            List.find?_cons_of_pos _ (by simp [hi])]
        simp [hj]
      · rw [List.find?_cons_of_neg _ (by simp [hg a, hi]),
            List.find?_cons_of_neg _ (by simp [hi])]
        exact ih
    · rw [if_neg hj]
      by_cases hi : a.id = i
      · rw [List.find?_cons_of_pos _ (by simp [hi]),
            List.find?_cons_of_pos _ (by simp [hi])]
        simp [hj]
      · rw [List.find?_cons_of_neg _ (by simp [hi]),
            List.find?_cons_of_neg _ (by simp [hi])]
        exact ih

theorem findByIdA_append_left {db : AdminStore} {i : Nat} {a : Admin}
    (l : AdminStore) (h : findByIdA db i = some a) :
    findByIdA (db ++ l) i = some a := by
  induction db with
  | nil => simp [findByIdA] at h
  | cons x tl ih =>
    by_cases hx : x.id = i
    · simpa [findByIdA, List.find?_cons, hx] using
        (by simpa [findByIdA, List.find?_cons, hx] using h : x = a)
    · have h' : findByIdA tl i = some a := by
        simpa [findByIdA, List.find?_cons, hx] using h
      simpa [findByIdA, List.find?_cons, hx] using ih h'

theorem profileUpdateData_frame (u : ProfileUpdates) (a : Admin) :
    (profileUpdateData u a).id = a.id
    ∧ (profileUpdateData u a).role = a.role
    ∧ (profileUpdateData u a).permissions = a.permissions
    ∧ (profileUpdateData u a).email = a.email
    ∧ (profileUpdateData u a).password = a.password
    ∧ (profileUpdateData u a).isActive = a.isActive
    ∧ (profileUpdateData u a).lastLogin = a.lastLogin
    ∧ (profileUpdateData u a).tokenVersion = a.tokenVersion := by
  unfold profileUpdateData
  rcases u.name with _ | n <;> rcases u.phone with _ | p <;>
    rcases u.avatar with _ | v <;> first
      | exact ⟨rfl, rfl, rfl, rfl, rfl, rfl, rfl, rfl⟩
      | (by_cases hn : n ≠ "" <;> simp [hn])

theorem assignOrderNumber_frame (db : List Order) (off : Int) (now : Nat)
    (o : Order) :
    (assignOrderNumber db off now o).id = o.id
    ∧ (assignOrderNumber db off now o).orderStatus = o.orderStatus
    ∧ (assignOrderNumber db off now o).statusHistory = o.statusHistory
    ∧ (assignOrderNumber db off now o).createdAt = o.createdAt := by
  unfold assignOrderNumber
  split <;> exact ⟨rfl, rfl, rfl, rfl⟩

theorem orderPreSave_orderNumber (db : List Order) (off : Int) (now : Nat)
    (d : OrderDoc) :
    (orderPreSave db off now d).order.orderNumber
      = (assignOrderNumber db off now d.order).orderNumber := by
  unfold orderPreSave
  split <;> rfl

/-! ## Claims -/

/-- The resource segment of a permission string in the spec's words:
the part before the first `"."`. -/
def resourceSegment (s : String) : String :=
  String.mk (s.data.takeWhile (fun c => c ≠ '.'))

theorem splitDotAux_headD (cs : List Char) :
    ∀ acc, (splitDotAux cs acc).headD ""
      = String.mk (acc.reverse ++ cs.takeWhile (fun c => c ≠ '.')) := by
  induction cs with
  | nil => intro acc; simp [splitDotAux]
  | cons c tl ih =>
    intro acc
    by_cases hc : c = '.'
    · subst hc
      simp [splitDotAux, List.takeWhile_cons]
    · have h1 : splitDotAux (c :: tl) acc = splitDotAux tl (c :: acc) := by
        simp [splitDotAux, hc]
      have h2 : (c :: tl).takeWhile (fun x => decide (x ≠ '.'))
          = c :: tl.takeWhile (fun x => decide (x ≠ '.')) := by
        rw [List.takeWhile_cons]
        simp [hc]
      rw [h1, ih (c :: acc), h2]
      congr 1
      simp

/-- The first component of the JS split is the part of the string
before its first dot. -/
theorem splitDot_headD (s : String) :
    (splitDot s).headD "" = resourceSegment s := by
  simpa [splitDot, resourceSegment] using splitDotAux_headD s.data []

/-- C3: `hasPermission(held, required)` is true exactly when the held
list contains the global wildcard `"*"`, the exact required string, or
the required string's resource segment (the part before the first
`"."`) followed by `".*"`; in particular the three example evaluations
of the spec hold. -/
theorem hasPermission_spec :
    (∀ held required, hasPermission held required = true ↔
        (held.contains "*" = true ∨ held.contains required = true
          ∨ held.contains (resourceSegment required ++ ".*") = true))
    ∧ hasPermission ["products.*"] "products.edit" = true
    ∧ hasPermission ["orders.view"] "orders.edit" = false
    ∧ ∀ p, hasPermission ["*"] p = true := by
  refine ⟨?_, by decide, by decide, ?_⟩
  · intro held required
    unfold hasPermission
    rw [splitDot_headD]
    by_cases h1 : held.contains "*" = true <;>
      by_cases h2 : held.contains required = true <;>
        simp [h1, h2]
  · intro p
    have h : (["*"] : List String).contains "*" = true := by decide
    simp [hasPermission, h]

/-- C4: the four valid roles each resolve to a fixed non-empty
permission list (determinism is immediate: `getRolePermissions` is a
pure function); the `"manager"` list is exactly the five-element list
of the spec, and registering an admin whose role is `"manager"` (with a
fresh email) assigns exactly that list. -/
theorem rolePermissions_spec :
    getRolePermissions "super-admin" ≠ []
    ∧ getRolePermissions "admin" ≠ []
    ∧ getRolePermissions "manager" ≠ []
    ∧ getRolePermissions "staff" ≠ []
    ∧ getRolePermissions "manager"
        = ["products.view", "products.edit", "orders.view", "orders.edit",
           "categories.view"]
    ∧ ∀ hash db newId data createdBy,
        data.role = some "manager" →
        findOneEmail db data.email = none →
        ∃ p, (registerAdmin hash db newId data createdBy).2 = .ok p
          ∧ p.permissions
              = ["products.view", "products.edit", "orders.view", "orders.edit",
                 "categories.view"] := by
  refine ⟨by decide, by decide, by decide, by decide, by decide, ?_⟩
  intro hash db newId data createdBy hrole hmail
  unfold registerAdmin
  simp [hmail, hrole, saveAdminDoc, adminPreSave, toPublic, ROLE_PERMISSIONS]

/-- Witness for the register conjunct of `rolePermissions_spec`. -/
theorem rolePermissions_spec_witness :
    ∃ p, (registerAdmin (fun s => s ++ "#digest") [] 1
            ⟨"Asha", "asha@sanasilver.in", "longenough", some "manager",
             none, none⟩ 7).2 = .ok p
      ∧ p.permissions
          = ["products.view", "products.edit", "orders.view", "orders.edit",
             "categories.view"] :=
  rolePermissions_spec.2.2.2.2.2 (fun s => s ++ "#digest") [] 1
    ⟨"Asha", "asha@sanasilver.in", "longenough", some "manager", none, none⟩ 7
    rfl rfl

/-- C8: the stored digest is recomputed by the salted hash exactly when
the password path is modified: a save that does not touch the password
leaves the digest unchanged; a save with the password modified hashes
the set value exactly once; a password-set event followed by a save
stores `hash p`; and a repeated save (the modified set having been
cleared) never re-hashes the stored digest. -/
theorem passwordHashing_spec :
    (∀ (hash : String → String) (d : AdminDoc),
        d.modified.contains "password" = false →
        (saveAdminDoc hash d).admin.password = d.admin.password)
    ∧ (∀ (hash : String → String) (d : AdminDoc),
        d.modified.contains "password" = true →
        (saveAdminDoc hash d).admin.password = hash d.admin.password)
    ∧ (∀ (hash : String → String) (d : AdminDoc) (p : String),
        d.modified = [] → (d.isNew = true ∨ p ≠ d.admin.password) →
        (saveAdminDoc hash (setAdminPassword d p)).admin.password = hash p)
    ∧ (∀ (hash : String → String) (d : AdminDoc),
        (saveAdminDoc hash (saveAdminDoc hash d)).admin.password
          = (saveAdminDoc hash d).admin.password) := by
  refine ⟨?_, ?_, ?_, ?_⟩
  · intro hash d h
    simp at h
    simp [saveAdminDoc, adminPreSave, h]
  · intro hash d h
    simp at h
    simp [saveAdminDoc, adminPreSave, h]
  · intro hash d p hmod hset
    have hcond : (d.isNew || d.admin.password ≠ p) = true := by
      rcases hset with h | h
      · simp [h]
      · simp [Ne.symm h]
    unfold setAdminPassword
    rw [if_pos (by simpa using hcond)]
    simp [saveAdminDoc, adminPreSave, hmod]
  · intro hash d
    simp [saveAdminDoc, adminPreSave]

/-- Witness for `passwordHashing_spec`: a concrete untouched save keeps
the digest, and a concrete password-set event stores the hash of the
new password. -/
theorem passwordHashing_spec_witness :
    (saveAdminDoc (fun s => "h:" ++ s)
        ⟨⟨1, "Asha", "asha@sanasilver.in", "h:old", "staff", [], true, none,
          none, none, 0⟩, [], false⟩).admin.password = "h:old"
    ∧ (saveAdminDoc (fun s => "h:" ++ s)
        (setAdminPassword
          ⟨⟨1, "Asha", "asha@sanasilver.in", "h:old", "staff", [], true, none,
            none, none, 0⟩, [], false⟩ "fresh-secret")).admin.password
        = (fun s => "h:" ++ s) "fresh-secret" :=
  ⟨passwordHashing_spec.1 (fun s => "h:" ++ s) _ rfl,
   passwordHashing_spec.2.2.1 (fun s => "h:" ++ s) _ "fresh-secret" rfl
     (Or.inr (by decide))⟩

/-- C9: `updateAdminProfile` touches at most the name, phone and avatar
fields of the matching admin: every other field — in particular role
and permissions — is unchanged, whatever the update input contains. -/
theorem updateProfile_frame :
    ∀ (db : AdminStore) (i : Nat) (u : ProfileUpdates) (a : Admin),
      findByIdA db i = some a →
      ∃ a', findByIdA (updateAdminProfile db i u).1 i = some a'
        ∧ a'.role = a.role ∧ a'.permissions = a.permissions
        ∧ a'.email = a.email ∧ a'.password = a.password
        ∧ a'.isActive = a.isActive ∧ a'.tokenVersion = a.tokenVersion
        ∧ a'.lastLogin = a.lastLogin ∧ a'.id = a.id := by
  intro db i u a hfind
  have hid := findByIdA_id hfind
  have hg : ∀ x, (profileUpdateData u x).id = x.id :=
    fun x => (profileUpdateData_frame u x).1
  refine ⟨profileUpdateData u a, ?_, ?_⟩
  · unfold updateAdminProfile
    rw [hfind]
    simp only
    rw [findByIdA_updateById db i (profileUpdateData u) hg i, hfind]
    simp [hid]
  · have h := profileUpdateData_frame u a
    exact ⟨h.2.1, h.2.2.1, h.2.2.2.1, h.2.2.2.2.1, h.2.2.2.2.2.1,
      h.2.2.2.2.2.2.2, h.2.2.2.2.2.2.1, h.1⟩

/-- Witness for `updateProfile_frame`: an update input that even asks
for a role and permission change leaves both untouched. -/
theorem updateProfile_frame_witness :
    ∃ a', findByIdA
        (updateAdminProfile
          [⟨1, "Asha", "asha@sanasilver.in", "h:old", "staff",
            ["products.view", "orders.view"], true, none, none, none, 0⟩] 1
          ⟨some "Mallory", some "999", some "x.png", some "super-admin",
           some ["*"]⟩).1 1 = some a'
      ∧ a'.role = "staff"
      ∧ a'.permissions = ["products.view", "orders.view"]
      ∧ a'.email = "asha@sanasilver.in" ∧ a'.password = "h:old"
      ∧ a'.isActive = true ∧ a'.tokenVersion = 0
      ∧ a'.lastLogin = none ∧ a'.id = 1 :=
  updateProfile_frame
    [⟨1, "Asha", "asha@sanasilver.in", "h:old", "staff",
      ["products.view", "orders.view"], true, none, none, none, 0⟩] 1
    ⟨some "Mallory", some "999", some "x.png", some "super-admin", some ["*"]⟩
    ⟨1, "Asha", "asha@sanasilver.in", "h:old", "staff",
      ["products.view", "orders.view"], true, none, none, none, 0⟩ rfl

/-- C10: when the old password does not verify, `changePassword` fails
with the incorrect-password error and returns the store exactly as it
was — in particular the stored digest and the token version of the
admin keep their prior values. -/
theorem changePassword_error_frame :
    ∀ (hash : String → String) (verify : String → String → Bool)
      (db : AdminStore) (i : Nat) (oldPassword newPassword : String) (a : Admin),
      findByIdA db i = some a →
      verify oldPassword a.password = false →
      changePassword hash verify db i oldPassword newPassword
        = (db, .error .incorrectPassword) := by
  intro hash verify db i oldPassword newPassword a hfind hver
  unfold changePassword
  rw [hfind]
  simp [hver]

/-- Witness for `changePassword_error_frame`. -/
theorem changePassword_error_frame_witness :
    changePassword (fun s => "h:" ++ s) (fun _ _ => false)
        [⟨1, "Asha", "asha@sanasilver.in", "h:old", "staff", [], true, none,
          none, none, 5⟩] 1 "wrong" "newsecret1"
      = ([⟨1, "Asha", "asha@sanasilver.in", "h:old", "staff", [], true, none,
          none, none, 5⟩], .error .incorrectPassword) :=
  changePassword_error_frame (fun s => "h:" ++ s) (fun _ _ => false) _ 1
    "wrong" "newsecret1" _ rfl rfl

/-- C7 counterexample: a deactivated account with the queried email is
a case of "no matching active identity", yet `loginAdmin` fails with
the message `"Account is deactivated"`, which differs from the
`"Invalid credentials"` message of the password-mismatch (and
unknown-email) case — the two failure causes are distinguishable, so
the identical-message part of the claim is false as stated. -/
theorem login_message_counterexample :
    (loginAdmin (fun _ _ => true)
        [⟨1, "Asha", "asha@sanasilver.in", "h:pw", "admin", [], false, none,
          none, none, 0⟩] "asha@sanasilver.in" "right-password" 50).2
      = .error .accountDeactivated
    ∧ (loginAdmin (fun _ _ => false)
        [⟨1, "Asha", "asha@sanasilver.in", "h:pw", "admin", [], true, none,
          none, none, 0⟩] "asha@sanasilver.in" "wrong-password" 50).2
      = .error .invalidCredentials
    ∧ errorMessage .accountDeactivated ≠ errorMessage .invalidCredentials :=
  ⟨rfl, rfl, by decide⟩

/-- C7 amended: `loginAdmin` fails with an Unauthorized-class error
when no identity matches the email, when the account is deactivated,
and when the password does not verify; the unknown-email and
wrong-password failures carry the identical `"Invalid credentials"`
message, while a deactivated account yields the distinct
`"Account is deactivated"` message; on success it records the
last-login timestamp, issues one access token and one refresh token,
and returns the identity with the password digest stripped. -/
theorem login_spec_amended :
    (∀ verify db email password now, findOneEmail db email = none →
        loginAdmin verify db email password now = (db, .error .invalidCredentials))
    ∧ (∀ verify db email password now a, findOneEmail db email = some a →
        a.isActive = true → verify password a.password = false →
        loginAdmin verify db email password now = (db, .error .invalidCredentials))
    ∧ (∀ verify db email password now a, findOneEmail db email = some a →
        a.isActive = false →
        loginAdmin verify db email password now = (db, .error .accountDeactivated))
    ∧ (specUnauthorized .invalidCredentials = true
        ∧ specUnauthorized .accountDeactivated = true
        ∧ errorMessage .accountDeactivated ≠ errorMessage .invalidCredentials)
    ∧ (∀ verify db email password now a, findOneEmail db email = some a →
        a.isActive = true → verify password a.password = true →
        loginAdmin verify db email password now
          = (updateLastLogin db a.id now,
             .ok { admin := toPublic a
                   accessToken := generateAccessToken a now
                   refreshToken := generateRefreshToken a now })) := by
  refine ⟨?_, ?_, ?_, ⟨rfl, rfl, by decide⟩, ?_⟩
  · intro verify db email password now h
    unfold loginAdmin
    rw [h]
  · intro verify db email password now a hfind hact hver
    unfold loginAdmin
    rw [hfind]
    simp [hact, hver]
  · intro verify db email password now a hfind hact
    unfold loginAdmin
    rw [hfind]
    simp [hact]
  · intro verify db email password now a hfind hact hver
    unfold loginAdmin
    rw [hfind]
    simp [hact, hver]

/-- Witness for `login_spec_amended`: a concrete successful login. -/
theorem login_spec_amended_witness :
    loginAdmin (fun _ _ => true)
        [⟨1, "Asha", "asha@sanasilver.in", "h:pw", "admin", [], true, none,
          none, none, 3⟩] "asha@sanasilver.in" "right-password" 50
      = (updateLastLogin
          [⟨1, "Asha", "asha@sanasilver.in", "h:pw", "admin", [], true, none,
            none, none, 3⟩] 1 50,
         .ok { admin := toPublic ⟨1, "Asha", "asha@sanasilver.in", "h:pw",
                 "admin", [], true, none, none, none, 3⟩
               accessToken := generateAccessToken ⟨1, "Asha",
                 "asha@sanasilver.in", "h:pw", "admin", [], true, none, none,
                 none, 3⟩ 50
               refreshToken := generateRefreshToken ⟨1, "Asha",
                 "asha@sanasilver.in", "h:pw", "admin", [], true, none, none,
                 none, 3⟩ 50 }) :=
  login_spec_amended.2.2.2.2 (fun _ _ => true) _ "asha@sanasilver.in"
    "right-password" 50
    ⟨1, "Asha", "asha@sanasilver.in", "h:pw", "admin", [], true, none, none,
     none, 3⟩ rfl rfl rfl

theorem refreshAccessToken_fst (db : AdminStore) (tok : RefreshToken) (now : Nat) :
    (refreshAccessToken db tok now).1 = db := by
  unfold refreshAccessToken
  split
  · rfl
  · split
    · rfl
    · split
      · rfl
      · split <;> rfl

theorem getAdminProfile_fst (db : AdminStore) (i : Nat) :
    (getAdminProfile db i).1 = db := by
  unfold getAdminProfile
  rcases findByIdA db i with _ | admin <;> rfl

theorem findByIdA_updateById_cases (db : AdminStore) (j : Nat)
    (g : Admin → Admin) (hg : ∀ x, (g x).id = x.id) (i : Nat) (a : Admin)
    (h : findByIdA db i = some a) :
    findByIdA (updateById db j g) i = some a
    ∨ findByIdA (updateById db j g) i = some (g a) := by
  rw [findByIdA_updateById db j g hg i, h]
  by_cases hij : a.id = j
  · right
    simp [hij]
  · left
    simp [hij]

/-- C1: after `logoutAdmin(i)` completes, a refresh token previously
issued to the admin `i` fails `refreshAccessToken` with an
Unauthorized-class error even inside its expiry window — for an active
account the error is precisely the stale-version rejection — and the
token's embedded token version no longer equals the admin's current
token version. -/
theorem logout_invalidates_refresh :
    ∀ (db : AdminStore) (i : Nat) (a : Admin) (t0 t1 : Nat),
      findByIdA db i = some a →
      t1 < t0 + refreshTokenTtl →
      ∃ e, (refreshAccessToken (logoutAdmin db i).1 (generateRefreshToken a t0) t1).2
            = .error e
        ∧ specUnauthorized e = true
        ∧ (a.isActive = true → e = .invalidRefreshToken)
        ∧ ∀ a', findByIdA (logoutAdmin db i).1 i = some a' →
            (generateRefreshToken a t0).payload.tokenVersion ≠ a'.tokenVersion := by
  intro db i a t0 t1 hfind hexp
  have hid := findByIdA_id hfind
  subst hid
  have hg : ∀ x : Admin,
      ((fun x : Admin => { x with tokenVersion := x.tokenVersion + 1 }) x).id = x.id :=
    fun x => rfl
  have hdb' : findByIdA (logoutAdmin db a.id).1 a.id
      = some { a with tokenVersion := a.tokenVersion + 1 } := by
    unfold logoutAdmin
    simp only
    rw [findByIdA_updateById db a.id _ hg a.id, hfind]
    simp
  have hver : verifyRefreshToken (generateRefreshToken a t0) t1
      = .ok ⟨a.id, a.tokenVersion⟩ := by
    have hlt : ¬ (t0 + refreshTokenTtl ≤ t1) := by omega
    simp [verifyRefreshToken, generateRefreshToken, hlt]
  have hres : (refreshAccessToken (logoutAdmin db a.id).1 (generateRefreshToken a t0) t1).2
      = .error (if a.isActive then .invalidRefreshToken else .accountDeactivated) := by
    unfold refreshAccessToken
    rw [hver]
    simp only
    rw [hdb']
    by_cases hact : a.isActive <;> simp [hact]
  refine ⟨if a.isActive then .invalidRefreshToken else .accountDeactivated,
    hres, ?_, ?_, ?_⟩
  · by_cases hact : a.isActive <;> simp [hact, specUnauthorized]
  · intro hact
    simp [hact]
  · intro a' ha'
    rw [hdb'] at ha'
    injection ha' with h
    subst h
    show a.tokenVersion ≠ a.tokenVersion + 1
    omega

/-- Witness for `logout_invalidates_refresh`. -/
theorem logout_invalidates_refresh_witness :
    ∃ e, (refreshAccessToken
            (logoutAdmin
              [⟨1, "Asha", "asha@sanasilver.in", "h:pw", "admin", [], true,
                none, none, none, 4⟩] 1).1
            (generateRefreshToken
              ⟨1, "Asha", "asha@sanasilver.in", "h:pw", "admin", [], true,
               none, none, none, 4⟩ 1000) 2000).2
          = .error e
      ∧ specUnauthorized e = true
      ∧ ((⟨1, "Asha", "asha@sanasilver.in", "h:pw", "admin", [], true, none,
            none, none, 4⟩ : Admin).isActive = true → e = .invalidRefreshToken)
      ∧ ∀ a', findByIdA
            (logoutAdmin
              [⟨1, "Asha", "asha@sanasilver.in", "h:pw", "admin", [], true,
                none, none, none, 4⟩] 1).1 1 = some a' →
          (generateRefreshToken
            ⟨1, "Asha", "asha@sanasilver.in", "h:pw", "admin", [], true, none,
             none, none, 4⟩ 1000).payload.tokenVersion ≠ a'.tokenVersion :=
  logout_invalidates_refresh _ 1
    ⟨1, "Asha", "asha@sanasilver.in", "h:pw", "admin", [], true, none, none,
     none, 4⟩ 1000 2000 rfl (by decide)

theorem registerAdmin_fst (hash : String → String) (db : AdminStore)
    (newId : Nat) (data : RegisterData) (createdBy : Nat) :
    (registerAdmin hash db newId data createdBy).1 = db
    ∨ ∃ x, (registerAdmin hash db newId data createdBy).1 = db ++ [x] := by
  unfold registerAdmin
  split
  · exact Or.inl rfl
  · exact Or.inr ⟨_, rfl⟩

theorem loginAdmin_fst (verify : String → String → Bool) (db : AdminStore)
    (email password : String) (now : Nat) :
    (loginAdmin verify db email password now).1 = db
    ∨ ∃ j, (loginAdmin verify db email password now).1
        = updateById db j (fun x => { x with lastLogin := some now }) := by
  unfold loginAdmin
  split
  · exact Or.inl rfl
  · split
    · exact Or.inl rfl
    · split
      · exact Or.inl rfl
      · exact Or.inr ⟨_, rfl⟩

theorem updateAdminProfile_fst (db : AdminStore) (i : Nat) (u : ProfileUpdates) :
    (updateAdminProfile db i u).1 = db
    ∨ (updateAdminProfile db i u).1 = updateById db i (profileUpdateData u) := by
  unfold updateAdminProfile
  split
  · exact Or.inl rfl
  · exact Or.inr rfl

theorem changePassword_fst (hash : String → String)
    (verify : String → String → Bool) (db : AdminStore) (i : Nat)
    (oldPassword newPassword : String) :
    (changePassword hash verify db i oldPassword newPassword).1 = db
    ∨ ∃ p, (changePassword hash verify db i oldPassword newPassword).1
        = updateById (updateById db i (fun x => { x with password := p })) i
            (fun x => { x with tokenVersion := x.tokenVersion + 1 }) := by
  unfold changePassword
  split
  · exact Or.inl rfl
  · split
    · exact Or.inl rfl
    · exact Or.inr ⟨_, rfl⟩

/-- C2: the token-version counter is monotone under every admin-service
operation — no operation ever decreases it — and `logoutAdmin` and a
successful `changePassword` increment it by exactly one. -/
theorem tokenVersion_monotone :
    (∀ (hash : String → String) (verify : String → String → Bool)
        (db : AdminStore) (op : AdminOp) (i : Nat) (a : Admin),
        findByIdA db i = some a →
        ∃ a', findByIdA (applyAdminOp hash verify db op) i = some a'
          ∧ (a'.tokenVersion = a.tokenVersion
              ∨ a'.tokenVersion = a.tokenVersion + 1)
          ∧ a.tokenVersion ≤ a'.tokenVersion)
    ∧ (∀ (db : AdminStore) (i : Nat) (a : Admin),
        findByIdA db i = some a →
        ∃ a', findByIdA (logoutAdmin db i).1 i = some a'
          ∧ a'.tokenVersion = a.tokenVersion + 1)
    ∧ (∀ (hash : String → String) (verify : String → String → Bool)
        (db : AdminStore) (i : Nat) (oldPassword newPassword : String)
        (a : Admin),
        findByIdA db i = some a →
        verify oldPassword a.password = true →
        ∃ a', findByIdA (changePassword hash verify db i oldPassword newPassword).1 i
            = some a'
          ∧ a'.tokenVersion = a.tokenVersion + 1) := by
  refine ⟨?_, ?_, ?_⟩
  · intro hash verify db op i a hfind
    cases op with
    | register newId data createdBy =>
      show ∃ a', findByIdA (registerAdmin hash db newId data createdBy).1 i = some a' ∧ _
      rcases registerAdmin_fst hash db newId data createdBy with h | ⟨x, h⟩ <;> rw [h]
      · exact ⟨a, hfind, Or.inl rfl, le_refl _⟩
      · exact ⟨a, findByIdA_append_left _ hfind, Or.inl rfl, le_refl _⟩
    | login email password now =>
      show ∃ a', findByIdA (loginAdmin verify db email password now).1 i = some a' ∧ _
      rcases loginAdmin_fst verify db email password now with h | ⟨j, h⟩ <;> rw [h]
      · exact ⟨a, hfind, Or.inl rfl, le_refl _⟩
      · rcases findByIdA_updateById_cases db j
          (fun x => { x with lastLogin := some now }) (fun x => rfl) i a hfind
          with h2 | h2
        · exact ⟨a, h2, Or.inl rfl, le_refl _⟩
        · exact ⟨_, h2, Or.inl rfl, le_refl _⟩
    | refresh tok now =>
      show ∃ a', findByIdA (refreshAccessToken db tok now).1 i = some a' ∧ _
      rw [refreshAccessToken_fst]
      exact ⟨a, hfind, Or.inl rfl, le_refl _⟩
    | logout j =>
      rcases findByIdA_updateById_cases db j
        (fun x => { x with tokenVersion := x.tokenVersion + 1 }) (fun x => rfl)
        i a hfind with h2 | h2
      · exact ⟨a, h2, Or.inl rfl, le_refl _⟩
      · exact ⟨_, h2, Or.inr rfl, Nat.le_succ _⟩
    | getProfile j =>
      show ∃ a', findByIdA (getAdminProfile db j).1 i = some a' ∧ _
      rw [getAdminProfile_fst]
      exact ⟨a, hfind, Or.inl rfl, le_refl _⟩
    | updateProfile j u =>
      show ∃ a', findByIdA (updateAdminProfile db j u).1 i = some a' ∧ _
      rcases updateAdminProfile_fst db j u with h | h <;> rw [h]
      · exact ⟨a, hfind, Or.inl rfl, le_refl _⟩
      · rcases findByIdA_updateById_cases db j (profileUpdateData u)
          (fun x => (profileUpdateData_frame u x).1) i a hfind with h2 | h2
        · exact ⟨a, h2, Or.inl rfl, le_refl _⟩
        · exact ⟨_, h2, Or.inl (profileUpdateData_frame u a).2.2.2.2.2.2.2,
            le_of_eq (profileUpdateData_frame u a).2.2.2.2.2.2.2.symm⟩
    | changePwd j oldPassword newPassword =>
      show ∃ a', findByIdA (changePassword hash verify db j oldPassword newPassword).1 i
          = some a' ∧ _
      rcases changePassword_fst hash verify db j oldPassword newPassword
        with h | ⟨p, h⟩ <;> rw [h]
      · exact ⟨a, hfind, Or.inl rfl, le_refl _⟩
      · rcases findByIdA_updateById_cases db j (fun x => { x with password := p })
          (fun x => rfl) i a hfind with h1 | h1
        · rcases findByIdA_updateById_cases _ j
            (fun x => { x with tokenVersion := x.tokenVersion + 1 })
            (fun x => rfl) i a h1 with h2 | h2
          · exact ⟨a, h2, Or.inl rfl, le_refl _⟩
          · exact ⟨_, h2, Or.inr rfl, Nat.le_succ _⟩
        · rcases findByIdA_updateById_cases _ j
            (fun x => { x with tokenVersion := x.tokenVersion + 1 })
            (fun x => rfl) i _ h1 with h2 | h2
          · exact ⟨_, h2, Or.inl rfl, le_refl _⟩
          · exact ⟨_, h2, Or.inr rfl, Nat.le_succ _⟩
  · intro db i a hfind
    have hid := findByIdA_id hfind
    subst hid
    refine ⟨{ a with tokenVersion := a.tokenVersion + 1 }, ?_, rfl⟩
    unfold logoutAdmin
    simp only
    rw [findByIdA_updateById db a.id
      (fun x => { x with tokenVersion := x.tokenVersion + 1 }) (fun x => rfl) a.id, hfind]
    simp
  · intro hash verify db i oldPassword newPassword a hfind hver
    have hid := findByIdA_id hfind
    subst hid
    unfold changePassword
    rw [hfind]
    simp only [hver, Bool.not_true, Bool.false_eq_true, not_false_eq_true,
      ite_false, if_neg]
    have h1 : findByIdA (updateById db a.id
        (fun x => { x with password :=
          (saveAdminDoc hash (setAdminPassword ⟨a, [], false⟩ newPassword)).admin.password })) a.id
        = some { a with password :=
          (saveAdminDoc hash (setAdminPassword ⟨a, [], false⟩ newPassword)).admin.password } := by
      rw [findByIdA_updateById db a.id
        (fun x => { x with password :=
          (saveAdminDoc hash (setAdminPassword ⟨a, [], false⟩ newPassword)).admin.password })
        (fun x => rfl) a.id, hfind]
      simp
    refine ⟨{ a with
        password :=
          (saveAdminDoc hash (setAdminPassword ⟨a, [], false⟩ newPassword)).admin.password,
        tokenVersion := a.tokenVersion + 1 }, ?_, rfl⟩
    rw [findByIdA_updateById _ a.id
      (fun x => { x with tokenVersion := x.tokenVersion + 1 }) (fun x => rfl) a.id, h1]
    simp

/-- Witness for `tokenVersion_monotone`: a concrete logout increments
the version from 4 to 5, and a concrete password change increments it
from 4 to 5 as well. -/
theorem tokenVersion_monotone_witness :
    (∃ a', findByIdA
        (logoutAdmin
          [⟨1, "Asha", "asha@sanasilver.in", "h:pw", "admin", [], true, none,
            none, none, 4⟩] 1).1 1 = some a'
      ∧ a'.tokenVersion = 4 + 1)
    ∧ (∃ a', findByIdA
        (changePassword (fun s => "h:" ++ s) (fun _ _ => true)
          [⟨1, "Asha", "asha@sanasilver.in", "h:pw", "admin", [], true, none,
            none, none, 4⟩] 1 "old-secret" "new-secret1").1 1 = some a'
      ∧ a'.tokenVersion = 4 + 1) :=
  ⟨tokenVersion_monotone.2.1 _ 1
    ⟨1, "Asha", "asha@sanasilver.in", "h:pw", "admin", [], true, none, none,
     none, 4⟩ rfl,
   tokenVersion_monotone.2.2 (fun s => "h:" ++ s) (fun _ _ => true) _ 1
    "old-secret" "new-secret1"
    ⟨1, "Asha", "asha@sanasilver.in", "h:pw", "admin", [], true, none, none,
     none, 4⟩ rfl rfl⟩

/-- C5: an order saved without an order number is assigned
`"ORD-" ++ YYYYMMDD ++ "-" ++ seq` where the zero-padded (width 4)
sequence is the count of orders created since local midnight plus one;
an already-assigned number is never changed by the hook nor by a
subsequent save; and a successful insert keeps the stored order numbers
pairwise distinct (the `unique: true` index rejects duplicates). -/
theorem orderNumber_spec :
    (∀ (db : List Order) (off : Int) (now : Nat) (o : Order),
        o.orderNumber = "" →
        (assignOrderNumber db off now o).orderNumber
          = "ORD-" ++ yyyymmdd now ++ "-"
              ++ padStart (Nat.repr (sameDayCount db off now + 1)) 4 '0')
    ∧ (∀ (db : List Order) (off : Int) (now : Nat) (o : Order),
        o.orderNumber ≠ "" →
        (assignOrderNumber db off now o).orderNumber = o.orderNumber)
    ∧ (∀ (db : List Order) (off : Int) (now : Nat) (d : OrderDoc)
        (db' : List Order) (d' : OrderDoc),
        d.isNew = false → d.order.orderNumber ≠ "" →
        saveOrderDoc db off now d = .ok (db', d') →
        d'.order.orderNumber = d.order.orderNumber)
    ∧ (∀ (db : List Order) (off : Int) (now : Nat) (d : OrderDoc)
        (db' : List Order) (d' : OrderDoc),
        d.isNew = true →
        (db.map (fun o => o.orderNumber)).Nodup →
        saveOrderDoc db off now d = .ok (db', d') →
        (db'.map (fun o => o.orderNumber)).Nodup) := by
  refine ⟨?_, ?_, ?_, ?_⟩
  · intro db off now o h
    unfold assignOrderNumber
    rw [if_pos h]
  · intro db off now o h
    unfold assignOrderNumber
    rw [if_neg h]
  · intro db off now d db' d' hnew hnum hsave
    unfold saveOrderDoc at hsave
    rw [hnew] at hsave
    simp only [Bool.false_eq_true, if_false] at hsave
    split at hsave
    · cases hsave
    · injection hsave with h
      injection h with h1 h2
      subst h2
      rw [orderPreSave_orderNumber]
      unfold assignOrderNumber
      rw [if_neg hnum]
  · intro db off now d db' d' hnew hnodup hsave
    unfold saveOrderDoc at hsave
    rw [hnew] at hsave
    simp only [if_true] at hsave
    split at hsave
    · cases hsave
    · rename_i hguard
      injection hsave with h
      injection h with h1 h2
      subst h1
      rw [List.map_append]
      rw [List.nodup_append]
      refine ⟨hnodup, List.nodup_singleton _, ?_⟩
      intro x hx hmem
      simp only [List.map_cons, List.map_nil, List.mem_singleton] at hmem
      subst hmem
      obtain ⟨y, hy, hyx⟩ := List.mem_map.mp hx
      have hall := List.any_eq_false.mp (Bool.not_eq_true _ ▸ hguard) y hy
      simp only [decide_eq_true_eq] at hall
      exact hall (by rw [hyx])

/-- Witness for `orderNumber_spec`: a concrete first order of the day
is numbered with sequence 0001, an assigned number survives the hook,
and a concrete insert preserves distinctness. -/
theorem orderNumber_spec_witness :
    (assignOrderNumber [] 0 1760227200
        ⟨1, "", "pending", [], 0⟩).orderNumber
      = "ORD-" ++ yyyymmdd 1760227200 ++ "-"
          ++ padStart (Nat.repr (sameDayCount [] 0 1760227200 + 1)) 4 '0'
    ∧ (assignOrderNumber [] 0 1760227200
        ⟨1, "ORD-20251012-0001", "pending", [], 0⟩).orderNumber
      = "ORD-20251012-0001" :=
  ⟨orderNumber_spec.1 [] 0 1760227200 ⟨1, "", "pending", [], 0⟩ rfl,
   orderNumber_spec.2.1 [] 0 1760227200
     ⟨1, "ORD-20251012-0001", "pending", [], 0⟩ (by decide)⟩

set_option maxRecDepth 4000 in
/-- C6: saving an order whose `orderStatus` was actually changed
appends exactly one history entry carrying the new status and the
timestamp; reassigning the current value marks nothing modified and the
save appends no entry (so a second identical `setStatus` is a no-op on
history, as in the concrete two-save scenario); and the first save of a
newly created order (creation modelled from the spec, setting the
initial status `"pending"` explicitly) appends exactly the initial
`"pending"` entry. -/
theorem statusHistory_spec :
    (∀ (db : List Order) (off : Int) (now : Nat) (d : OrderDoc) (s : String),
        d.isNew = false → d.modified = [] → d.order.orderStatus ≠ s →
        (orderPreSave db off now (setOrderStatus d s)).order.statusHistory
          = d.order.statusHistory ++ [⟨s, now⟩])
    ∧ (∀ (db : List Order) (off : Int) (now : Nat) (d : OrderDoc) (s : String),
        d.isNew = false → d.modified.contains "orderStatus" = false →
        d.order.orderStatus = s →
        (orderPreSave db off now (setOrderStatus d s)).order.statusHistory
          = d.order.statusHistory)
    ∧ ((saveOrderDoc [⟨1, "ORD-20250101-0001", "pending", [⟨"pending", 100⟩], 100⟩]
          0 200
          (setOrderStatus
            ⟨⟨1, "ORD-20250101-0001", "pending", [⟨"pending", 100⟩], 100⟩,
             [], false⟩ "processing")).bind
        (fun r => (saveOrderDoc r.1 0 300 (setOrderStatus r.2 "processing")).map
          (fun r2 => r2.2.order.statusHistory))
        = .ok [⟨"pending", 100⟩, ⟨"processing", 200⟩])
    ∧ (∀ (db : List Order) (off : Int) (now : Nat) (newId : Nat)
        (db' : List Order) (d' : OrderDoc),
        saveOrderDoc db off now (createOrder newId) = .ok (db', d') →
        d'.order.statusHistory = [⟨"pending", now⟩]) := by
  refine ⟨?_, ?_, by rfl, ?_⟩
  · intro db off now d s hnew hmod hne
    have hset : setOrderStatus d s
        = { d with order := { d.order with orderStatus := s }
                   modified := "orderStatus" :: d.modified } := by
      unfold setOrderStatus
      rw [if_pos]
      simp [hnew, hne]
    have hfr := assignOrderNumber_frame db off now { d.order with orderStatus := s }
    rw [hset]
    simp [orderPreSave, hfr.2.1, hfr.2.2.1, hmod]
  · intro db off now d s hnew hmod hs
    have hset : setOrderStatus d s = d := by
      unfold setOrderStatus
      rw [if_neg]
      simp [hnew, hs]
    have hfr := assignOrderNumber_frame db off now d.order
    have hmod' : ¬ ("orderStatus" ∈ d.modified) := by simpa using hmod
    rw [hset]
    simp [orderPreSave, hmod', hfr.2.2.1]
  · intro db off now newId db' d' hsave
    have hexp : saveOrderDoc db off now (createOrder newId)
        = (if db.any (fun x => x.orderNumber
              = ({ (orderPreSave db off now (createOrder newId)).order with
                    createdAt := now } : Order).orderNumber)
           then .error .duplicateKey
           else .ok
             (db ++ [{ (orderPreSave db off now (createOrder newId)).order with
                        createdAt := now }],
              ⟨{ (orderPreSave db off now (createOrder newId)).order with
                  createdAt := now }, [], false⟩)) := rfl
    rw [hexp] at hsave
    split at hsave
    · cases hsave
    · injection hsave with h
      injection h with h1 h2
      subst h2
      show (orderPreSave db off now (createOrder newId)).order.statusHistory = _
      have hfr := assignOrderNumber_frame db off now
        { id := newId, orderNumber := "", orderStatus := "pending"
          statusHistory := [], createdAt := 0 }
      simp [orderPreSave, createOrder, hfr.2.1, hfr.2.2.1]

/-- Witness for `statusHistory_spec`: concrete instances of the
change-appends-one-entry, no-op-appends-nothing and creation clauses. -/
theorem statusHistory_spec_witness :
    ((orderPreSave [] 0 200
        (setOrderStatus
          ⟨⟨1, "ORD-20250101-0001", "pending", [⟨"pending", 100⟩], 100⟩,
           [], false⟩ "processing")).order.statusHistory
      = [⟨"pending", 100⟩] ++ [⟨"processing", 200⟩])
    ∧ ((orderPreSave [] 0 300
        (setOrderStatus
          ⟨⟨1, "ORD-20250101-0001", "processing",
            [⟨"pending", 100⟩, ⟨"processing", 200⟩], 100⟩,
           [], false⟩ "processing")).order.statusHistory
      = [⟨"pending", 100⟩, ⟨"processing", 200⟩])
    ∧ ∀ db' d', saveOrderDoc [] 0 400 (createOrder 9) = .ok (db', d') →
        d'.order.statusHistory = [⟨"pending", 400⟩] :=
  ⟨statusHistory_spec.1 [] 0 200
     ⟨⟨1, "ORD-20250101-0001", "pending", [⟨"pending", 100⟩], 100⟩, [], false⟩
     "processing" rfl rfl (by decide),
   statusHistory_spec.2.1 [] 0 300
     ⟨⟨1, "ORD-20250101-0001", "processing",
       [⟨"pending", 100⟩, ⟨"processing", 200⟩], 100⟩, [], false⟩
     "processing" rfl rfl rfl,
   fun db' d' h => statusHistory_spec.2.2.2 [] 0 400 9 db' d' h⟩

end SanaSilver
